import Mathlib

/-!
Shallow embedding of `fab-digest` (src/main.go), a single-pass pipeline that
queries GitHub activity through the `gh` CLI and emits a JSON report.

Modelling conventions:
* `time.Time` values are instants `Nat`; the Go zero `time.Time` is `0`,
  `t.Before(u)` is `t < u`, `t.IsZero()` is `t = 0`.
* Go slices are `Option (List α)`: `none` is a nil slice, `some l` a non-nil
  slice with elements `l` (ranging over a nil slice iterates zero times).
* The Go map `map[string]int` is `Option (List (String × Int))`, an
  association list with assignment-replaces-key semantics; `none` is nil.
* External effects (the `gh` subprocess, `json.Unmarshal`) are parameters:
  each fetch function is modelled from the point where its parsed results
  are in hand, and `main` is modelled as `runMain` over the five per-category
  fetch outcomes.
-/

namespace FabDigest

/-- `PR` of main.go: a pull request record in the report. -/
structure PR where
  Repo : String
  Number : Int
  Title : String
  URL : String
  Author : String
deriving DecidableEq, Repr

/-- `Issue` of main.go: an issue record in the report. -/
structure Issue where
  Repo : String
  Number : Int
  Title : String
  URL : String
  Author : String
deriving DecidableEq, Repr

/-- `Commits` of main.go: total commit count plus per-repository counts. -/
structure Commits where
  Total : Int
  ByRepo : Option (List (String × Int))
deriving DecidableEq, Repr

/-- `Summary` of main.go: aggregate statistics. -/
structure Summary where
  TotalPRsMerged : Int
  TotalIssuesClosed : Int
  TotalCommits : Int
  ActiveRepos : Option (List String)
deriving DecidableEq, Repr

/-- `GitHub` of main.go: all GitHub-derived data. -/
structure GitHub where
  PRsMerged : Option (List PR)
  PRsOpened : Option (List PR)
  IssuesClosed : Option (List Issue)
  IssuesOpened : Option (List Issue)
  Commits : Commits
deriving DecidableEq, Repr

/-- `Period` of main.go: the time window for the digest. -/
structure Period where
  Hours : Int
  Since : String
deriving DecidableEq, Repr

/-- `Output` of main.go: the top-level JSON structure emitted by the tool. -/
structure Output where
  GeneratedAt : String
  Period : Period
  GitHub : GitHub
  Summary : Summary
  Error : String
deriving DecidableEq, Repr

/-- `repoInfo` of main.go. -/
structure repoInfo where
  NameWithOwner : String
deriving DecidableEq, Repr

/-- `author` of main.go. -/
structure author where
  Login : String
deriving DecidableEq, Repr

/-- `ghSearchPRResult` of main.go: one parsed record from `gh search prs`. -/
structure ghSearchPRResult where
  URL : String
  Number : Int
  Title : String
  Repository : repoInfo
  Author : author
  MergedAt : Nat
  CreatedAt : Nat
deriving DecidableEq, Repr

/-- `ghSearchIssueResult` of main.go: one parsed record from
`gh search issues`; `ClosedAt` is a `*time.Time`, `none` when nil. -/
structure ghSearchIssueResult where
  URL : String
  Number : Int
  Title : String
  Repository : repoInfo
  Author : author
  ClosedAt : Option Nat
  CreatedAt : Nat
deriving DecidableEq, Repr

/-- The record constructed from a PR search result (body of the loops in
`fetchMergedPRs` and `fetchOpenedPRs`). -/
def prOfSearchResult (r : ghSearchPRResult) : PR :=
  { Repo := r.Repository.NameWithOwner
    Number := r.Number
    Title := r.Title
    URL := r.URL
    Author := r.Author.Login }

/-- The record constructed from an issue search result (body of the loops in
`fetchClosedIssues` and `fetchOpenedIssues`). -/
def issueOfSearchResult (r : ghSearchIssueResult) : Issue :=
  { Repo := r.Repository.NameWithOwner
    Number := r.Number
    Title := r.Title
    URL := r.URL
    Author := r.Author.Login }

/-- The `continue` guard of `fetchMergedPRs`, as a keep-predicate:
the record is skipped iff `!r.MergedAt.IsZero() && r.MergedAt.Before(since)`. -/
def keepMergedPR (since : Nat) (r : ghSearchPRResult) : Bool :=
  if r.MergedAt ≠ 0 ∧ r.MergedAt < since then false else true

/-- The `continue` guard of `fetchOpenedPRs`:
skipped iff `!r.CreatedAt.IsZero() && r.CreatedAt.Before(since)`. -/
def keepOpenedPR (since : Nat) (r : ghSearchPRResult) : Bool :=
  if r.CreatedAt ≠ 0 ∧ r.CreatedAt < since then false else true

/-- The `continue` guard of `fetchClosedIssues`:
skipped iff `r.ClosedAt != nil && r.ClosedAt.Before(since)`. -/
def keepClosedIssue (since : Nat) (r : ghSearchIssueResult) : Bool :=
  match r.ClosedAt with
  | none => true
  | some t => if t < since then false else true

/-- The `continue` guard of `fetchOpenedIssues`:
skipped iff `!r.CreatedAt.IsZero() && r.CreatedAt.Before(since)`. -/
def keepOpenedIssue (since : Nat) (r : ghSearchIssueResult) : Bool :=
  if r.CreatedAt ≠ 0 ∧ r.CreatedAt < since then false else true

/-- The pure tail of `fetchMergedPRs`, from the parsed `gh` results on. -/
def fetchMergedPRs (results : List ghSearchPRResult) (since : Nat) : List PR :=
  (results.filter (keepMergedPR since)).map prOfSearchResult

/-- The pure tail of `fetchOpenedPRs`, from the parsed `gh` results on. -/
def fetchOpenedPRs (results : List ghSearchPRResult) (since : Nat) : List PR :=
  (results.filter (keepOpenedPR since)).map prOfSearchResult

/-- The pure tail of `fetchClosedIssues`, from the parsed `gh` results on. -/
def fetchClosedIssues (results : List ghSearchIssueResult) (since : Nat) : List Issue :=
  (results.filter (keepClosedIssue since)).map issueOfSearchResult

/-- The pure tail of `fetchOpenedIssues`, from the parsed `gh` results on. -/
def fetchOpenedIssues (results : List ghSearchIssueResult) (since : Nat) : List Issue :=
  (results.filter (keepOpenedIssue since)).map issueOfSearchResult

/-- `activeRepos[x] = true` on the Go map-as-set: the key set grows by `x`. -/
def insertActive (m : List String) (x : String) : List String :=
  if x ∈ m then m else m ++ [x]

/-- `computeSummary` of main.go: folds the four record lists and the commit
tally key set into the active-repository set and the three totals. -/
def computeSummary (gh : GitHub) : Summary :=
  let m1 := (gh.PRsMerged.getD []).foldl (fun m pr => insertActive m pr.Repo) []
  let m2 := (gh.PRsOpened.getD []).foldl (fun m pr => insertActive m pr.Repo) m1
  let m3 := (gh.IssuesClosed.getD []).foldl (fun m i => insertActive m i.Repo) m2
  let m4 := (gh.IssuesOpened.getD []).foldl (fun m i => insertActive m i.Repo) m3
  let m5 := (gh.Commits.ByRepo.getD []).foldl (fun m kv => insertActive m kv.1) m4
  { TotalPRsMerged := ((gh.PRsMerged.getD []).length : Int)
    TotalIssuesClosed := ((gh.IssuesClosed.getD []).length : Int)
    TotalCommits := gh.Commits.Total
    ActiveRepos := some m5 }

/-- `repoListResult` of main.go: one parsed record from `gh repo list`. -/
structure repoListResult where
  Name : String
  NameWithOwner : String
deriving DecidableEq, Repr

/-- The pure tail of `fetchOrgRepos`: projects the bare `name` field. -/
def fetchOrgRepos (results : List repoListResult) : List String :=
  results.map (fun r => r.Name)

/-- Go map assignment `m[k] = v`: replace the value if the key is present,
append a new entry otherwise. -/
def insertByRepo (m : List (String × Int)) (k : String) (v : Int) : List (String × Int) :=
  if m.any (fun p => p.1 = k) then
    m.map (fun p => if p.1 = k then (k, v) else p)
  else m ++ [(k, v)]

/-- One iteration of the `fetchCommits` loop: `countOf repo` is the outcome
of `fetchRepoCommitCount` for that repository (`error` logs and skips; a
positive count adds to the total and sets the map entry). -/
def commitStep (countOf : String → Except String Int) (acc : Commits)
    (repo : String) : Commits :=
  match countOf repo with
  | .error _ => acc
  | .ok count =>
    if count > 0 then
      { Total := acc.Total + count
        ByRepo := some (insertByRepo (acc.ByRepo.getD []) repo count) }
    else acc

/-- The accumulation loop of `fetchCommits`, starting from the empty tally. -/
def fetchCommits (repos : List String) (countOf : String → Except String Int) : Commits :=
  repos.foldl (commitStep countOf) { Total := 0, ByRepo := some [] }

/-- `strings.TrimSpace`. -/
def trimSpace (s : String) : String := s.trim

/-- The observable outcome of one `exec.Command(...).Run()`: whether it
failed, the captured streams, and the Go error text for the failure. -/
structure cmdOutcome where
  failed : Bool
  stdout : String
  stderr : String
  errText : String

/-- `runCmd` of main.go, over the outcome of the single process run: on
failure, builds the message from trimmed stderr, falling back to trimmed
stdout, then the process-level error text. -/
def runCmd (bin : String) (args : List String) (o : cmdOutcome) : Except String String :=
  if o.failed then
    let msg :=
      if trimSpace o.stderr ≠ "" then trimSpace o.stderr
      else if trimSpace o.stdout ≠ "" then trimSpace o.stdout
      else o.errText
    .error (bin ++ " " ++ String.intercalate " " args ++ ": " ++ msg)
  else .ok o.stdout

/-- The five per-category fetch outcomes feeding `main` (an `error` is either
a process-exit failure or a JSON-parse failure of that category). -/
structure FetchResults where
  prsMerged : Except String (List PR)
  prsOpened : Except String (List PR)
  issuesClosed : Except String (List Issue)
  issuesOpened : Except String (List Issue)
  commits : Except String Commits

/-- The per-category recovery in `main`: a failed list query degrades to the
empty (non-nil) list. -/
def recoverList (r : Except String (List α)) : List α :=
  match r with
  | .ok v => v
  | .error _ => []

/-- The commit-category recovery in `main`: a failed commit query degrades to
`Commits{Total: 0, ByRepo: make(map[string]int)}`. -/
def recoverCommits (r : Except String Commits) : Commits :=
  match r with
  | .ok v => v
  | .error _ => { Total := 0, ByRepo := some [] }

/-- The document built by `emitError`: only `GeneratedAt` and `Error` are
set; every other field keeps its Go zero value (nil slices and map). -/
def emitErrorOutput (nowStr msg : String) : Output :=
  { GeneratedAt := nowStr
    Period := { Hours := 0, Since := "" }
    GitHub :=
      { PRsMerged := none
        PRsOpened := none
        IssuesClosed := none
        IssuesOpened := none
        Commits := { Total := 0, ByRepo := none } }
    Summary :=
      { TotalPRsMerged := 0
        TotalIssuesClosed := 0
        TotalCommits := 0
        ActiveRepos := none }
    Error := msg }

/-- `main` of main.go, over the fetch outcomes: the emitted document paired
with the process exit code. An empty `-org` emits the error document and
exits 1; otherwise each category recovers independently, the summary is
computed, and the full report is emitted with exit code 0. -/
def runMain (org : String) (hours : Int) (nowStr sinceStr : String)
    (fr : FetchResults) : Output × Nat :=
  if org = "" then
    (emitErrorOutput nowStr "org flag is required", 1)
  else
    let gh : GitHub :=
      { PRsMerged := some (recoverList fr.prsMerged)
        PRsOpened := some (recoverList fr.prsOpened)
        IssuesClosed := some (recoverList fr.issuesClosed)
        IssuesOpened := some (recoverList fr.issuesOpened)
        Commits := recoverCommits fr.commits }
    ({ GeneratedAt := nowStr
       Period := { Hours := hours, Since := sinceStr }
       GitHub := gh
       Summary := computeSummary gh
       Error := "" }, 0)

/-! ### JSON serialization

`emitJSON` is `json.NewEncoder(os.Stdout).Encode(v)`; deserialization is
`json.Unmarshal` into `Output`. Both are modelled on a JSON value tree
(`Json`), abstracting the generic text printing/parsing of the standard
library. Go specifics kept: a nil slice or map encodes as `null`; the
`author`/`error` fields carry `omitempty`; on decoding, a missing key or a
JSON `null` leaves the Go zero value in place. -/

/-- A JSON document, with object fields in encoding order. -/
inductive Json where
  | null : Json
  | num (n : Int) : Json
  | str (s : String) : Json
  | arr (elems : List Json) : Json
  | obj (fields : List (String × Json)) : Json

/-- Struct-tag encoding of a `PR` (the `author` key has `omitempty`). -/
def encodePR (p : PR) : Json :=
  .obj ([("repo", .str p.Repo), ("number", .num p.Number),
         ("title", .str p.Title), ("url", .str p.URL)] ++
    (if p.Author = "" then [] else [("author", .str p.Author)]))

/-- Struct-tag encoding of an `Issue` (the `author` key has `omitempty`). -/
def encodeIssue (i : Issue) : Json :=
  .obj ([("repo", .str i.Repo), ("number", .num i.Number),
         ("title", .str i.Title), ("url", .str i.URL)] ++
    (if i.Author = "" then [] else [("author", .str i.Author)]))

/-- Encoding of a Go slice field: nil encodes as `null`. -/
def encodeListField (enc : α → Json) : Option (List α) → Json
  | none => .null
  | some l => .arr (l.map enc)

/-- Encoding of the `byRepo` map: nil encodes as `null`. -/
def encodeByRepo : Option (List (String × Int)) → Json
  | none => .null
  | some l => .obj (l.map (fun p => (p.1, .num p.2)))

/-- Struct-tag encoding of `Commits`. -/
def encodeCommits (c : Commits) : Json :=
  .obj [("total", .num c.Total), ("byRepo", encodeByRepo c.ByRepo)]

/-- Struct-tag encoding of `Summary`. -/
def encodeSummary (s : Summary) : Json :=
  .obj [("totalPRsMerged", .num s.TotalPRsMerged),
        ("totalIssuesClosed", .num s.TotalIssuesClosed),
        ("totalCommits", .num s.TotalCommits),
        ("activeRepos", encodeListField Json.str s.ActiveRepos)]

/-- Struct-tag encoding of `GitHub`. -/
def encodeGitHub (g : GitHub) : Json :=
  .obj [("prsMerged", encodeListField encodePR g.PRsMerged),
        ("prsOpened", encodeListField encodePR g.PRsOpened),
        ("issuesClosed", encodeListField encodeIssue g.IssuesClosed),
        ("issuesOpened", encodeListField encodeIssue g.IssuesOpened),
        ("commits", encodeCommits g.Commits)]

/-- Struct-tag encoding of `Period`. -/
def encodePeriod (p : Period) : Json :=
  .obj [("hours", .num p.Hours), ("since", .str p.Since)]

/-- Struct-tag encoding of `Output` (the `error` key has `omitempty`). -/
def encodeOutput (o : Output) : Json :=
  .obj ([("generatedAt", .str o.GeneratedAt),
         ("period", encodePeriod o.Period),
         ("github", encodeGitHub o.GitHub),
         ("summary", encodeSummary o.Summary)] ++
    (if o.Error = "" then [] else [("error", .str o.Error)]))

/-- First value bound to a key in an object's field list. -/
def jGet (k : String) : List (String × Json) → Option Json
  | [] => none
  | (k2, v) :: rest => if k2 = k then some v else jGet k rest

/-- Field access treating a missing key as `null` (both leave the Go zero
value untouched on decoding). -/
def jGetD (k : String) (f : List (String × Json)) : Json :=
  (jGet k f).getD .null

/-- Decode a string field: missing or `null` leaves `""`. -/
def decStr (f : List (String × Json)) (k : String) : Option String :=
  match jGetD k f with
  | .null => some ""
  | .str s => some s
  | _ => none

/-- Decode an int field: missing or `null` leaves `0`. -/
def decInt (f : List (String × Json)) (k : String) : Option Int :=
  match jGetD k f with
  | .null => some 0
  | .num n => some n
  | _ => none

/-- Decode each element of a JSON array. -/
def decodeList (dec : Json → Option α) : List Json → Option (List α)
  | [] => some []
  | j :: rest =>
    match dec j, decodeList dec rest with
    | some a, some l => some (a :: l)
    | _, _ => none

/-- Decode a Go slice field: missing or `null` is the nil slice. -/
def decOptList (dec : Json → Option α) : Json → Option (Option (List α))
  | .null => some none
  | .arr js => (decodeList dec js).map some
  | _ => none

/-- Decode one `PR` object. -/
def decodePR : Json → Option PR
  | .obj f =>
    match decStr f "repo", decInt f "number", decStr f "title",
          decStr f "url", decStr f "author" with
    | some repo, some number, some title, some url, some auth =>
      some { Repo := repo, Number := number, Title := title,
             URL := url, Author := auth }
    | _, _, _, _, _ => none
  | _ => none

/-- Decode one `Issue` object. -/
def decodeIssue : Json → Option Issue
  | .obj f =>
    match decStr f "repo", decInt f "number", decStr f "title",
          decStr f "url", decStr f "author" with
    | some repo, some number, some title, some url, some auth =>
      some { Repo := repo, Number := number, Title := title,
             URL := url, Author := auth }
    | _, _, _, _, _ => none
  | _ => none

/-- Decode the entries of the `byRepo` object. -/
def decodeByRepoEntries : List (String × Json) → Option (List (String × Int))
  | [] => some []
  | kv :: rest =>
    match kv.2, decodeByRepoEntries rest with
    | .num n, some l => some ((kv.1, n) :: l)
    | _, _ => none

/-- Decode the `byRepo` map: missing or `null` is the nil map. -/
def decodeByRepo : Json → Option (Option (List (String × Int)))
  | .null => some none
  | .obj kvs => (decodeByRepoEntries kvs).map some
  | _ => none

/-- Decode a `Commits` object (`null` leaves the zero value). -/
def decodeCommits : Json → Option Commits
  | .null => some { Total := 0, ByRepo := none }
  | .obj f =>
    match decInt f "total", decodeByRepo (jGetD "byRepo" f) with
    | some total, some byRepo => some { Total := total, ByRepo := byRepo }
    | _, _ => none
  | _ => none

/-- Decode a `Period` object (`null` leaves the zero value). -/
def decodePeriod : Json → Option Period
  | .null => some { Hours := 0, Since := "" }
  | .obj f =>
    match decInt f "hours", decStr f "since" with
    | some hours, some since => some { Hours := hours, Since := since }
    | _, _ => none
  | _ => none

/-- Decode a `GitHub` object (`null` leaves the zero value). -/
def decodeGitHub : Json → Option GitHub
  | .null =>
    some { PRsMerged := none, PRsOpened := none, IssuesClosed := none,
           IssuesOpened := none, Commits := { Total := 0, ByRepo := none } }
  | .obj f =>
    match decOptList decodePR (jGetD "prsMerged" f),
          decOptList decodePR (jGetD "prsOpened" f),
          decOptList decodeIssue (jGetD "issuesClosed" f),
          decOptList decodeIssue (jGetD "issuesOpened" f),
          decodeCommits (jGetD "commits" f) with
    | some pm, some po, some icl, some iop, some cm =>
      some { PRsMerged := pm, PRsOpened := po, IssuesClosed := icl,
             IssuesOpened := iop, Commits := cm }
    | _, _, _, _, _ => none
  | _ => none

/-- Decode a `Summary` object (`null` leaves the zero value). -/
def decodeSummary : Json → Option Summary
  | .null =>
    some { TotalPRsMerged := 0, TotalIssuesClosed := 0, TotalCommits := 0,
           ActiveRepos := none }
  | .obj f =>
    match decInt f "totalPRsMerged", decInt f "totalIssuesClosed",
          decInt f "totalCommits",
          decOptList (fun j => match j with | .str s => some s | _ => none)
            (jGetD "activeRepos" f) with
    | some a, some b, some c, some d =>
      some { TotalPRsMerged := a, TotalIssuesClosed := b, TotalCommits := c,
             ActiveRepos := d }
    | _, _, _, _ => none
  | _ => none

/-- Decode an `Output` object (top-level `json.Unmarshal` target). -/
def decodeOutput : Json → Option Output
  | .obj f =>
    match decStr f "generatedAt", decodePeriod (jGetD "period" f),
          decodeGitHub (jGetD "github" f), decodeSummary (jGetD "summary" f),
          decStr f "error" with
    | some g, some p, some gh, some s, some e =>
      some { GeneratedAt := g, Period := p, GitHub := gh, Summary := s,
             Error := e }
    | _, _, _, _, _ => none
  | _ => none

/-! ### Helper lemmas -/

theorem mem_insertActive (m : List String) (x r : String) :
    r ∈ insertActive m x ↔ r ∈ m ∨ r = x := by
  unfold insertActive
  by_cases h : x ∈ m
  · rw [if_pos h]
    constructor
    · exact Or.inl
    · rintro (hr | rfl)
      · exact hr
      · exact h
  · rw [if_neg h]
    simp

theorem mem_foldl_insertActive {α : Type} (f : α → String) (l : List α)
    (acc : List String) (r : String) :
    r ∈ l.foldl (fun m x => insertActive m (f x)) acc ↔
      r ∈ acc ∨ r ∈ l.map f := by
  induction l generalizing acc with
  | nil => simp
  | cons x xs ih =>
    rw [List.foldl_cons, ih, mem_insertActive]
    simp only [List.map_cons, List.mem_cons]
    tauto

/-- C1: for every GitHub data value, the `ActiveRepos` field of
`computeSummary`, viewed as a set, holds exactly the union of the `Repo`
fields of the four record lists and the keys of the commit tally's
per-repository map. -/
theorem computeSummary_activeRepos_spec (gh : GitHub) (r : String) :
    r ∈ (computeSummary gh).ActiveRepos.getD [] ↔
      r ∈ (gh.PRsMerged.getD []).map PR.Repo ∨
      r ∈ (gh.PRsOpened.getD []).map PR.Repo ∨
      r ∈ (gh.IssuesClosed.getD []).map Issue.Repo ∨
      r ∈ (gh.IssuesOpened.getD []).map Issue.Repo ∨
      r ∈ (gh.Commits.ByRepo.getD []).map Prod.fst := by
  simp only [computeSummary, Option.getD_some]
  rw [mem_foldl_insertActive, mem_foldl_insertActive, mem_foldl_insertActive,
    mem_foldl_insertActive, mem_foldl_insertActive]
  tauto

/-- A sample PR search record whose `mergedAt` is the zero timestamp. -/
def samplePRZeroMerged : ghSearchPRResult :=
  { URL := "u"
    Number := 1
    Title := "t"
    Repository := { NameWithOwner := "org/a" }
    Author := { Login := "me" }
    MergedAt := 0
    CreatedAt := 7 }

/-- A sample PR search record merged at instant 3. -/
def samplePRMerged3 : ghSearchPRResult :=
  { URL := "u3"
    Number := 3
    Title := "t3"
    Repository := { NameWithOwner := "org/c" }
    Author := { Login := "z" }
    MergedAt := 3
    CreatedAt := 7 }

/-- A sample issue search record whose `closedAt` pointer is nil. -/
def sampleIssueNilClosed : ghSearchIssueResult :=
  { URL := "u2"
    Number := 2
    Title := "t2"
    Repository := { NameWithOwner := "org/b" }
    Author := { Login := "y" }
    ClosedAt := none
    CreatedAt := 7 }

/-- A sample issue search record closed at instant 2. -/
def sampleIssueClosed2 : ghSearchIssueResult :=
  { URL := "u4"
    Number := 4
    Title := "t4"
    Repository := { NameWithOwner := "org/d" }
    Author := { Login := "w" }
    ClosedAt := some 2
    CreatedAt := 7 }

/-- C2 counterexample: a merged-PR record whose `mergedAt` is the zero
timestamp, strictly before the window start `1`, is retained by the filter
rather than excluded as the claim states. -/
theorem fetchMergedPRs_zero_timestamp_retained :
    (0 : Nat) < 1 ∧
      fetchMergedPRs [samplePRZeroMerged] 1 = [prOfSearchResult samplePRZeroMerged] := by
  decide

/-- C2 amended: a record is retained exactly when its relevant timestamp is
the zero/absent value or is at/after the window start; a present (nonzero)
timestamp strictly before the window start is excluded. -/
theorem keep_filters_spec (since : Nat) (rP : ghSearchPRResult)
    (rI : ghSearchIssueResult) :
    (keepMergedPR since rP = true ↔
      (rP.MergedAt = 0 ∨ since ≤ rP.MergedAt)) ∧
    (keepOpenedPR since rP = true ↔
      (rP.CreatedAt = 0 ∨ since ≤ rP.CreatedAt)) ∧
    (keepClosedIssue since rI = true ↔
      (rI.ClosedAt = none ∨ ∃ t, rI.ClosedAt = some t ∧ since ≤ t)) ∧
    (keepOpenedIssue since rI = true ↔
      (rI.CreatedAt = 0 ∨ since ≤ rI.CreatedAt)) := by
  refine ⟨?_, ?_, ?_, ?_⟩
  · simp only [keepMergedPR]
    split
    · next h => simp only [Bool.false_eq_true, false_iff]; omega
    · next h => simp only [true_iff]; omega
  · simp only [keepOpenedPR]
    split
    · next h => simp only [Bool.false_eq_true, false_iff]; omega
    · next h => simp only [true_iff]; omega
  · cases hc : rI.ClosedAt with
    | none => simp [keepClosedIssue, hc]
    | some t =>
      simp only [keepClosedIssue, hc]
      split
      · next h => simp; omega
      · next h => simp; omega
  · simp only [keepOpenedIssue]
    split
    · next h => simp only [Bool.false_eq_true, false_iff]; omega
    · next h => simp only [true_iff]; omega

/-- C3: for the merged-PR and closed-issue filters, a record with a
zero/absent closing timestamp is kept regardless of the window start, and a
record with a present closing timestamp strictly before the window start is
dropped. -/
theorem closing_filter_zero_kept_before_dropped (since : Nat)
    (rP rP2 : ghSearchPRResult) (rI rI2 : ghSearchIssueResult) (t : Nat)
    (hP : rP.MergedAt = 0) (hI : rI.ClosedAt = none)
    (hP2 : rP2.MergedAt ≠ 0) (hP2b : rP2.MergedAt < since)
    (hI2 : rI2.ClosedAt = some t) (hI2b : t < since) :
    keepMergedPR since rP = true ∧ keepClosedIssue since rI = true ∧
    keepMergedPR since rP2 = false ∧ keepClosedIssue since rI2 = false := by
  refine ⟨?_, ?_, ?_, ?_⟩
  · simp [keepMergedPR, hP]
  · simp [keepClosedIssue, hI]
  · simp [keepMergedPR, hP2, hP2b]
  · simp [keepClosedIssue, hI2, hI2b]

/-- Witness for C3 at window start 5: a merged PR with zero `mergedAt` and an
issue with nil `closedAt` are kept; a merged PR resolved at 3 and an issue
closed at 2 are dropped. -/
theorem closing_filter_zero_kept_before_dropped_witness :
    keepMergedPR 5 samplePRZeroMerged = true ∧
    keepClosedIssue 5 sampleIssueNilClosed = true ∧
    keepMergedPR 5 samplePRMerged3 = false ∧
    keepClosedIssue 5 sampleIssueClosed2 = false :=
  closing_filter_zero_kept_before_dropped 5 samplePRZeroMerged samplePRMerged3
    sampleIssueNilClosed sampleIssueClosed2 2 rfl rfl
    (by decide) (by decide) rfl (by decide)

/-- C4: with an empty organization argument the program exits non-zero and
emits a document whose only populated fields are the generation timestamp and
a non-empty error message; the GitHub section, period and summary all keep
their zero values. -/
theorem runMain_empty_org_error (hours : Int) (nowStr sinceStr : String)
    (fr : FetchResults) :
    (runMain "" hours nowStr sinceStr fr).2 ≠ 0 ∧
    (runMain "" hours nowStr sinceStr fr).1.GeneratedAt = nowStr ∧
    (runMain "" hours nowStr sinceStr fr).1.Error = "org flag is required" ∧
    (runMain "" hours nowStr sinceStr fr).1.Error ≠ "" ∧
    (runMain "" hours nowStr sinceStr fr).1.GitHub =
      { PRsMerged := none
        PRsOpened := none
        IssuesClosed := none
        IssuesOpened := none
        Commits := { Total := 0, ByRepo := none } } ∧
    (runMain "" hours nowStr sinceStr fr).1.Summary =
      { TotalPRsMerged := 0
        TotalIssuesClosed := 0
        TotalCommits := 0
        ActiveRepos := none } ∧
    (runMain "" hours nowStr sinceStr fr).1.Period = { Hours := 0, Since := "" } := by
  refine ⟨?_, rfl, rfl, ?_, rfl, rfl, rfl⟩
  · show (1 : Nat) ≠ 0
    decide
  · show "org flag is required" ≠ ""
    decide

/-- C5: with the organization present, the run always completes with exit
code zero and a full report; each category independently keeps its fetched
value on success and degrades to the empty (or zero) result exactly when its
own query failed, and the summary is computed over the recovered data. -/
theorem runMain_partial_failure (org : String) (hours : Int)
    (nowStr sinceStr : String) (fr : FetchResults) (e : String)
    (h : org ≠ "") :
    (runMain org hours nowStr sinceStr fr).2 = 0 ∧
    (runMain org hours nowStr sinceStr fr).1.Error = "" ∧
    (runMain org hours nowStr sinceStr fr).1.GitHub.PRsMerged =
      some (recoverList fr.prsMerged) ∧
    (runMain org hours nowStr sinceStr fr).1.GitHub.PRsOpened =
      some (recoverList fr.prsOpened) ∧
    (runMain org hours nowStr sinceStr fr).1.GitHub.IssuesClosed =
      some (recoverList fr.issuesClosed) ∧
    (runMain org hours nowStr sinceStr fr).1.GitHub.IssuesOpened =
      some (recoverList fr.issuesOpened) ∧
    (runMain org hours nowStr sinceStr fr).1.GitHub.Commits =
      recoverCommits fr.commits ∧
    (runMain org hours nowStr sinceStr fr).1.Summary =
      computeSummary (runMain org hours nowStr sinceStr fr).1.GitHub ∧
    (fr.prsMerged = .error e →
      (runMain org hours nowStr sinceStr fr).1.GitHub.PRsMerged = some []) ∧
    (fr.prsOpened = .error e →
      (runMain org hours nowStr sinceStr fr).1.GitHub.PRsOpened = some []) ∧
    (fr.issuesClosed = .error e →
      (runMain org hours nowStr sinceStr fr).1.GitHub.IssuesClosed = some []) ∧
    (fr.issuesOpened = .error e →
      (runMain org hours nowStr sinceStr fr).1.GitHub.IssuesOpened = some []) ∧
    (fr.commits = .error e →
      (runMain org hours nowStr sinceStr fr).1.GitHub.Commits =
        { Total := 0, ByRepo := some [] }) := by
  unfold runMain
  rw [if_neg h]
  refine ⟨rfl, rfl, rfl, rfl, rfl, rfl, rfl, rfl, ?_, ?_, ?_, ?_, ?_⟩ <;>
    (intro he; rw [he]; rfl)

/-- A sample merged PR record for the report. -/
def samplePROk : PR :=
  { Repo := "org/lib"
    Number := 12
    Title := "fix"
    URL := "https://x/12"
    Author := "ann" }

/-- A sample closed issue record for the report. -/
def sampleIssueOk : Issue :=
  { Repo := "org/app"
    Number := 7
    Title := "bug"
    URL := "https://x/7"
    Author := "bob" }

/-- Fetch outcomes where only the merged-PR query failed. -/
def sampleFetchResults : FetchResults :=
  { prsMerged := .error "boom"
    prsOpened := .ok [samplePROk]
    issuesClosed := .ok [sampleIssueOk]
    issuesOpened := .ok []
    commits := .ok { Total := 2, ByRepo := some [("lib", 2)] } }

/-- Witness for C5: a concrete run with `-org acme` in which the merged-PR
query failed; the report completes, that category alone is empty, the other
categories keep their fetched values, and the exit code is zero. -/
theorem runMain_partial_failure_witness :
    (runMain "acme" 24 "now" "since" sampleFetchResults).2 = 0 ∧
    (runMain "acme" 24 "now" "since" sampleFetchResults).1.Error = "" ∧
    (runMain "acme" 24 "now" "since" sampleFetchResults).1.GitHub.PRsMerged =
      some (recoverList sampleFetchResults.prsMerged) ∧
    (runMain "acme" 24 "now" "since" sampleFetchResults).1.GitHub.PRsOpened =
      some (recoverList sampleFetchResults.prsOpened) ∧
    (runMain "acme" 24 "now" "since" sampleFetchResults).1.GitHub.IssuesClosed =
      some (recoverList sampleFetchResults.issuesClosed) ∧
    (runMain "acme" 24 "now" "since" sampleFetchResults).1.GitHub.IssuesOpened =
      some (recoverList sampleFetchResults.issuesOpened) ∧
    (runMain "acme" 24 "now" "since" sampleFetchResults).1.GitHub.Commits =
      recoverCommits sampleFetchResults.commits ∧
    (runMain "acme" 24 "now" "since" sampleFetchResults).1.Summary =
      computeSummary (runMain "acme" 24 "now" "since" sampleFetchResults).1.GitHub ∧
    (sampleFetchResults.prsMerged = .error "boom" →
      (runMain "acme" 24 "now" "since" sampleFetchResults).1.GitHub.PRsMerged =
        some []) ∧
    (sampleFetchResults.prsOpened = .error "boom" →
      (runMain "acme" 24 "now" "since" sampleFetchResults).1.GitHub.PRsOpened =
        some []) ∧
    (sampleFetchResults.issuesClosed = .error "boom" →
      (runMain "acme" 24 "now" "since" sampleFetchResults).1.GitHub.IssuesClosed =
        some []) ∧
    (sampleFetchResults.issuesOpened = .error "boom" →
      (runMain "acme" 24 "now" "since" sampleFetchResults).1.GitHub.IssuesOpened =
        some []) ∧
    (sampleFetchResults.commits = .error "boom" →
      (runMain "acme" 24 "now" "since" sampleFetchResults).1.GitHub.Commits =
        { Total := 0, ByRepo := some [] }) :=
  runMain_partial_failure "acme" 24 "now" "since" sampleFetchResults "boom"
    (by decide)

theorem insertByRepo_fresh (m : List (String × Int)) (k : String) (v : Int)
    (h : ∀ p ∈ m, p.1 ≠ k) : insertByRepo m k v = m ++ [(k, v)] := by
  have hany : m.any (fun p => p.1 = k) = false := by
    simp only [List.any_eq_false, decide_eq_true_eq]
    exact h
  unfold insertByRepo
  rw [hany]
  simp

theorem commits_foldl_invariant (countOf : String → Except String Int)
    (repos : List String) :
    ∀ (acc : Commits) (accL : List (String × Int)),
      acc.ByRepo = some accL →
      (∀ p ∈ accL, 0 < p.2) →
      acc.Total = (accL.map Prod.snd).sum →
      (∀ r ∈ repos, ∀ p ∈ accL, p.1 ≠ r) →
      repos.Nodup →
      ∃ outL, (repos.foldl (commitStep countOf) acc).ByRepo = some outL ∧
        (∀ p ∈ outL, 0 < p.2) ∧
        (repos.foldl (commitStep countOf) acc).Total =
          (outL.map Prod.snd).sum := by
  induction repos with
  | nil =>
    intro acc accL h1 h2 h3 _ _
    exact ⟨accL, h1, h2, h3⟩
  | cons r rs ih =>
    intro acc accL h1 h2 h3 hfresh hnd
    have hr : r ∉ rs := (List.nodup_cons.mp hnd).1
    have hnd2 : rs.Nodup := (List.nodup_cons.mp hnd).2
    rw [List.foldl_cons]
    cases hc : countOf r with
    | error e =>
      have hstep : commitStep countOf acc r = acc := by
        simp [commitStep, hc]
      rw [hstep]
      exact ih acc accL h1 h2 h3
        (fun x hx => hfresh x (List.mem_cons_of_mem _ hx)) hnd2
    | ok c =>
      by_cases hpos : c > 0
      · have hstep : commitStep countOf acc r =
            { Total := acc.Total + c, ByRepo := some (insertByRepo accL r c) } := by
          simp [commitStep, hc, hpos, h1]
        rw [hstep]
        have hins : insertByRepo accL r c = accL ++ [(r, c)] :=
          insertByRepo_fresh accL r c
            (fun p hp => hfresh r (List.mem_cons_self r rs) p hp)
        rw [hins]
        apply ih _ (accL ++ [(r, c)]) rfl
        · intro p hp
          rcases List.mem_append.mp hp with hin | hin
          · exact h2 p hin
          · rw [List.mem_singleton.mp hin]
            exact hpos
        · simp [h3]
        · intro r2 hr2 p hp
          rcases List.mem_append.mp hp with hin | hin
          · exact hfresh r2 (List.mem_cons_of_mem _ hr2) p hin
          · rw [List.mem_singleton.mp hin]
            intro heq
            have hrr : r = r2 := heq
            subst hrr
            exact hr hr2
        · exact hnd2
      · have hstep : commitStep countOf acc r = acc := by
          simp [commitStep, hc, hpos]
        rw [hstep]
        exact ih acc accL h1 h2 h3
          (fun x hx => hfresh x (List.mem_cons_of_mem _ hx)) hnd2

/-- C8: for a commit tally built by `fetchCommits` over a duplicate-free
repository listing, every per-repository entry carries a strictly positive
count, and the total equals the sum of the per-repository counts. -/
theorem fetchCommits_entries_positive_total_sum (repos : List String)
    (countOf : String → Except String Int) (h : repos.Nodup) :
    (∀ p ∈ (fetchCommits repos countOf).ByRepo.getD [], 0 < p.2) ∧
    (fetchCommits repos countOf).Total =
      (((fetchCommits repos countOf).ByRepo.getD []).map Prod.snd).sum := by
  obtain ⟨outL, h1, h2, h3⟩ := commits_foldl_invariant countOf repos
    { Total := 0, ByRepo := some [] } [] rfl (by simp) (by simp) (by simp) h
  unfold fetchCommits
  rw [h1]
  exact ⟨h2, h3⟩

/-- Per-repository commit-count outcomes: two commits in `alpha`, none in
`beta`, and a failing query for any other repository. -/
def sampleCountOf : String → Except String Int := fun r =>
  if r = "alpha" then .ok 2 else if r = "beta" then .ok 0 else .error "HTTP 404"

/-- Witness for C8 on the listing `[alpha, beta, gamma]`: `beta` (zero
commits) and `gamma` (failed query) get no entry, every entry is positive,
and the total equals the sum of the entries. -/
theorem fetchCommits_entries_positive_total_sum_witness :
    List.Nodup ["alpha", "beta", "gamma"] ∧
    ((∀ p ∈ (fetchCommits ["alpha", "beta", "gamma"] sampleCountOf).ByRepo.getD [],
        0 < p.2) ∧
     (fetchCommits ["alpha", "beta", "gamma"] sampleCountOf).Total =
       (((fetchCommits ["alpha", "beta", "gamma"] sampleCountOf).ByRepo.getD []).map
         Prod.snd).sum) :=
  ⟨by decide,
   fetchCommits_entries_positive_total_sum ["alpha", "beta", "gamma"]
     sampleCountOf (by decide)⟩

/-- A repository listing with bare name `a` owned by `org`. -/
def sampleRepoListing : List repoListResult :=
  [{ Name := "a", NameWithOwner := "org/a" }]

/-- A PR search record for the same repository, owner-qualified. -/
def sampleMergedResult : ghSearchPRResult :=
  { URL := "https://x/1"
    Number := 1
    Title := "t"
    Repository := { NameWithOwner := "org/a" }
    Author := { Login := "me" }
    MergedAt := 5
    CreatedAt := 5 }

/-- Commit counts keyed by the bare repository name. -/
def sampleCommitCount : String → Except String Int := fun r =>
  if r = "a" then .ok 3 else .error "nope"

/-- C9: the commit tally is keyed by the bare repository name from
`fetchOrgRepos` while PR records carry `nameWithOwner`; `computeSummary`
unions them without normalization, so one repository appears in the
active-repository set under both identifiers `a` and `org/a`. -/
theorem activeRepos_mixed_identifiers :
    "org/a" ∈ (computeSummary
      { PRsMerged := some (fetchMergedPRs [sampleMergedResult] 0)
        PRsOpened := some []
        IssuesClosed := some []
        IssuesOpened := some []
        Commits := fetchCommits (fetchOrgRepos sampleRepoListing)
          sampleCommitCount }).ActiveRepos.getD [] ∧
    "a" ∈ (computeSummary
      { PRsMerged := some (fetchMergedPRs [sampleMergedResult] 0)
        PRsOpened := some []
        IssuesClosed := some []
        IssuesOpened := some []
        Commits := fetchCommits (fetchOrgRepos sampleRepoListing)
          sampleCommitCount }).ActiveRepos.getD [] ∧
    ("org/a" : String) ≠ "a" := by
  decide

/-- C10: when the subprocess run fails, `runCmd` returns an error whose
message carries the trimmed stderr; if that is empty, the trimmed stdout;
if that is also empty, the process-level error text. -/
theorem runCmd_failure_message (bin : String) (args : List String)
    (o : cmdOutcome) (h : o.failed = true) :
    (trimSpace o.stderr ≠ "" →
      runCmd bin args o = .error (bin ++ " " ++ String.intercalate " " args ++
        ": " ++ trimSpace o.stderr)) ∧
    (trimSpace o.stderr = "" → trimSpace o.stdout ≠ "" →
      runCmd bin args o = .error (bin ++ " " ++ String.intercalate " " args ++
        ": " ++ trimSpace o.stdout)) ∧
    (trimSpace o.stderr = "" → trimSpace o.stdout = "" →
      runCmd bin args o = .error (bin ++ " " ++ String.intercalate " " args ++
        ": " ++ o.errText)) := by
  refine ⟨?_, ?_, ?_⟩
  · intro h1
    simp [runCmd, h, h1]
  · intro h1 h2
    simp [runCmd, h, h1, h2]
  · intro h1 h2
    simp [runCmd, h, h1, h2]

/-- A failed process run with a padded stderr message. -/
def sampleFailedCmd : cmdOutcome :=
  { failed := true, stdout := "", stderr := "  boom  ", errText := "exit status 1" }

/-- Witness for C10 on a concrete failed `gh repo list` run. -/
theorem runCmd_failure_message_witness :
    sampleFailedCmd.failed = true ∧
    ((trimSpace sampleFailedCmd.stderr ≠ "" →
      runCmd "gh" ["repo", "list"] sampleFailedCmd =
        .error ("gh" ++ " " ++ String.intercalate " " ["repo", "list"] ++
          ": " ++ trimSpace sampleFailedCmd.stderr)) ∧
    (trimSpace sampleFailedCmd.stderr = "" →
      trimSpace sampleFailedCmd.stdout ≠ "" →
      runCmd "gh" ["repo", "list"] sampleFailedCmd =
        .error ("gh" ++ " " ++ String.intercalate " " ["repo", "list"] ++
          ": " ++ trimSpace sampleFailedCmd.stdout)) ∧
    (trimSpace sampleFailedCmd.stderr = "" →
      trimSpace sampleFailedCmd.stdout = "" →
      runCmd "gh" ["repo", "list"] sampleFailedCmd =
        .error ("gh" ++ " " ++ String.intercalate " " ["repo", "list"] ++
          ": " ++ sampleFailedCmd.errText))) :=
  ⟨rfl, runCmd_failure_message "gh" ["repo", "list"] sampleFailedCmd rfl⟩

/-! ### Round-trip lemmas for the JSON model -/

theorem decodeList_map {α : Type} (dec : Json → Option α) (enc : α → Json)
    (h : ∀ x, dec (enc x) = some x) (l : List α) :
    decodeList dec (l.map enc) = some l := by
  induction l with
  | nil => rfl
  | cons x xs ih => simp [List.map_cons, decodeList, h x, ih]

theorem decodePR_encodePR (p : PR) : decodePR (encodePR p) = some p := by
  obtain ⟨repo, number, title, url, auth⟩ := p
  by_cases h : auth = ""
  · subst h
    rfl
  · simp only [encodePR]
    rw [if_neg h]
    rfl

theorem decodeIssue_encodeIssue (i : Issue) :
    decodeIssue (encodeIssue i) = some i := by
  obtain ⟨repo, number, title, url, auth⟩ := i
  by_cases h : auth = ""
  · subst h
    rfl
  · simp only [encodeIssue]
    rw [if_neg h]
    rfl

theorem decOptList_encodeListField {α : Type} (dec : Json → Option α)
    (enc : α → Json) (h : ∀ x, dec (enc x) = some x) (s : Option (List α)) :
    decOptList dec (encodeListField enc s) = some s := by
  cases s with
  | none => rfl
  | some l => simp [encodeListField, decOptList, decodeList_map dec enc h l]

theorem decodeByRepoEntries_map (l : List (String × Int)) :
    decodeByRepoEntries (l.map (fun p => (p.1, Json.num p.2))) = some l := by
  induction l with
  | nil => rfl
  | cons p ps ih => simp [List.map_cons, decodeByRepoEntries, ih]

theorem decodeByRepo_encodeByRepo (s : Option (List (String × Int))) :
    decodeByRepo (encodeByRepo s) = some s := by
  cases s with
  | none => rfl
  | some l => simp [encodeByRepo, decodeByRepo, decodeByRepoEntries_map l]

theorem decodeCommits_encodeCommits (c : Commits) :
    decodeCommits (encodeCommits c) = some c := by
  obtain ⟨total, byRepo⟩ := c
  simp [encodeCommits, decodeCommits, jGetD, jGet, decInt,
    decodeByRepo_encodeByRepo]

theorem decodePeriod_encodePeriod (p : Period) :
    decodePeriod (encodePeriod p) = some p := rfl

theorem decodeGitHub_encodeGitHub (g : GitHub) :
    decodeGitHub (encodeGitHub g) = some g := by
  obtain ⟨pm, po, icl, iop, cm⟩ := g
  simp [encodeGitHub, decodeGitHub, jGetD, jGet,
    decOptList_encodeListField decodePR encodePR decodePR_encodePR,
    decOptList_encodeListField decodeIssue encodeIssue decodeIssue_encodeIssue,
    decodeCommits_encodeCommits]

theorem decodeSummary_encodeSummary (s : Summary) :
    decodeSummary (encodeSummary s) = some s := by
  obtain ⟨a, b, c, d⟩ := s
  simp [encodeSummary, decodeSummary, jGetD, jGet, decInt,
    decOptList_encodeListField
      (fun j => match j with | Json.str s2 => some s2 | _ => none)
      Json.str (fun x => rfl)]

/-- C6: serializing a report and deserializing the result gives back a value
equal to the original in every field, for every report value. -/
theorem decodeOutput_encodeOutput (o : Output) :
    decodeOutput (encodeOutput o) = some o := by
  obtain ⟨gen, per, gh, summ, err⟩ := o
  by_cases h : err = ""
  · subst h
    simp [encodeOutput, decodeOutput, jGetD, jGet, decStr,
      decodePeriod_encodePeriod, decodeGitHub_encodeGitHub,
      decodeSummary_encodeSummary]
  · simp [encodeOutput, decodeOutput, jGetD, jGet, decStr, h,
      decodePeriod_encodePeriod, decodeGitHub_encodeGitHub,
      decodeSummary_encodeSummary]

/-- Key access on a serialized JSON object. -/
def jField (k : String) : Json → Option Json
  | .obj f => jGet k f
  | _ => none

/-- C7 counterexample: in the fatal-error document the `prsMerged` key inside
the `github` section is bound to JSON `null` (the Go nil slice), not to an
empty array as the claim states. -/
theorem errorDoc_prsMerged_null :
    (jField "github"
        (encodeOutput (emitErrorOutput "t0" "org flag is required"))).bind
      (jField "prsMerged") = some Json.null ∧
    some Json.null ≠ some (Json.arr []) := by
  constructor
  · rfl
  · intro hcontra
    exact Json.noConfusion (Option.some.inj hcontra)

/-- C7 amended: in the normal report the four record lists serialize as JSON
arrays and the per-repository commit map as a JSON object (present even when
empty, never null or absent), and no required key of the schema is omitted;
in the fatal-error document every schema key (including `error`) is still
present, but the four record lists and the commit map serialize as `null`,
the encoding of the Go nil collections. -/
theorem serialized_collections_spec (org : String) (hours : Int)
    (nowStr sinceStr t : String) (fr : FetchResults)
    (h : org ≠ "")
    (hc : ∀ c, fr.commits = Except.ok c → ∃ l, c.ByRepo = some l) :
    (∃ js, (jField "github"
        (encodeOutput (runMain org hours nowStr sinceStr fr).1)).bind
      (jField "prsMerged") = some (Json.arr js)) ∧
    (∃ js, (jField "github"
        (encodeOutput (runMain org hours nowStr sinceStr fr).1)).bind
      (jField "prsOpened") = some (Json.arr js)) ∧
    (∃ js, (jField "github"
        (encodeOutput (runMain org hours nowStr sinceStr fr).1)).bind
      (jField "issuesClosed") = some (Json.arr js)) ∧
    (∃ js, (jField "github"
        (encodeOutput (runMain org hours nowStr sinceStr fr).1)).bind
      (jField "issuesOpened") = some (Json.arr js)) ∧
    (∃ kvs, ((jField "github"
        (encodeOutput (runMain org hours nowStr sinceStr fr).1)).bind
      (jField "commits")).bind (jField "byRepo") = some (Json.obj kvs)) ∧
    (jField "generatedAt"
      (encodeOutput (runMain org hours nowStr sinceStr fr).1)).isSome = true ∧
    (jField "period"
      (encodeOutput (runMain org hours nowStr sinceStr fr).1)).isSome = true ∧
    (jField "github"
      (encodeOutput (runMain org hours nowStr sinceStr fr).1)).isSome = true ∧
    (jField "summary"
      (encodeOutput (runMain org hours nowStr sinceStr fr).1)).isSome = true ∧
    (jField "github"
        (encodeOutput (emitErrorOutput t "org flag is required"))).bind
      (jField "prsMerged") = some Json.null ∧
    (jField "github"
        (encodeOutput (emitErrorOutput t "org flag is required"))).bind
      (jField "prsOpened") = some Json.null ∧
    (jField "github"
        (encodeOutput (emitErrorOutput t "org flag is required"))).bind
      (jField "issuesClosed") = some Json.null ∧
    (jField "github"
        (encodeOutput (emitErrorOutput t "org flag is required"))).bind
      (jField "issuesOpened") = some Json.null ∧
    ((jField "github"
        (encodeOutput (emitErrorOutput t "org flag is required"))).bind
      (jField "commits")).bind (jField "byRepo") = some Json.null ∧
    (jField "generatedAt"
      (encodeOutput (emitErrorOutput t "org flag is required"))).isSome = true ∧
    (jField "period"
      (encodeOutput (emitErrorOutput t "org flag is required"))).isSome = true ∧
    (jField "github"
      (encodeOutput (emitErrorOutput t "org flag is required"))).isSome = true ∧
    (jField "summary"
      (encodeOutput (emitErrorOutput t "org flag is required"))).isSome = true ∧
    (jField "error"
      (encodeOutput (emitErrorOutput t "org flag is required"))).isSome = true := by
  unfold runMain
  rw [if_neg h]
  refine ⟨⟨_, rfl⟩, ⟨_, rfl⟩, ⟨_, rfl⟩, ⟨_, rfl⟩, ?_, rfl, rfl, rfl, rfl,
    rfl, rfl, rfl, rfl, rfl, rfl, rfl, rfl, rfl, rfl⟩
  cases hcm : fr.commits with
  | error e => exact ⟨[], rfl⟩
  | ok c =>
    obtain ⟨l, hl⟩ := hc c hcm
    refine ⟨l.map (fun p => (p.1, Json.num p.2)), ?_⟩
    show some (encodeByRepo c.ByRepo) = _
    rw [hl]
    rfl

/-- Witness for C7 (amended) on a concrete run: `-org acme`, merged-PR query
failed, commits fetched with one entry. -/
theorem serialized_collections_spec_witness :
    (∃ js, (jField "github"
        (encodeOutput (runMain "acme" 24 "now" "since" sampleFetchResults).1)).bind
      (jField "prsMerged") = some (Json.arr js)) ∧
    (∃ js, (jField "github"
        (encodeOutput (runMain "acme" 24 "now" "since" sampleFetchResults).1)).bind
      (jField "prsOpened") = some (Json.arr js)) ∧
    (∃ js, (jField "github"
        (encodeOutput (runMain "acme" 24 "now" "since" sampleFetchResults).1)).bind
      (jField "issuesClosed") = some (Json.arr js)) ∧
    (∃ js, (jField "github"
        (encodeOutput (runMain "acme" 24 "now" "since" sampleFetchResults).1)).bind
      (jField "issuesOpened") = some (Json.arr js)) ∧
    (∃ kvs, ((jField "github"
        (encodeOutput (runMain "acme" 24 "now" "since" sampleFetchResults).1)).bind
      (jField "commits")).bind (jField "byRepo") = some (Json.obj kvs)) ∧
    (jField "generatedAt"
      (encodeOutput (runMain "acme" 24 "now" "since" sampleFetchResults).1)).isSome = true ∧
    (jField "period"
      (encodeOutput (runMain "acme" 24 "now" "since" sampleFetchResults).1)).isSome = true ∧
    (jField "github"
      (encodeOutput (runMain "acme" 24 "now" "since" sampleFetchResults).1)).isSome = true ∧
    (jField "summary"
      (encodeOutput (runMain "acme" 24 "now" "since" sampleFetchResults).1)).isSome = true ∧
    (jField "github"
        (encodeOutput (emitErrorOutput "t0" "org flag is required"))).bind
      (jField "prsMerged") = some Json.null ∧
    (jField "github"
        (encodeOutput (emitErrorOutput "t0" "org flag is required"))).bind
      (jField "prsOpened") = some Json.null ∧
    (jField "github"
        (encodeOutput (emitErrorOutput "t0" "org flag is required"))).bind
      (jField "issuesClosed") = some Json.null ∧
    (jField "github"
        (encodeOutput (emitErrorOutput "t0" "org flag is required"))).bind
      (jField "issuesOpened") = some Json.null ∧
    ((jField "github"
        (encodeOutput (emitErrorOutput "t0" "org flag is required"))).bind
      (jField "commits")).bind (jField "byRepo") = some Json.null ∧
    (jField "generatedAt"
      (encodeOutput (emitErrorOutput "t0" "org flag is required"))).isSome = true ∧
    (jField "period"
      (encodeOutput (emitErrorOutput "t0" "org flag is required"))).isSome = true ∧
    (jField "github"
      (encodeOutput (emitErrorOutput "t0" "org flag is required"))).isSome = true ∧
    (jField "summary"
      (encodeOutput (emitErrorOutput "t0" "org flag is required"))).isSome = true ∧
    (jField "error"
      (encodeOutput (emitErrorOutput "t0" "org flag is required"))).isSome = true :=
  serialized_collections_spec "acme" 24 "now" "since" "t0" sampleFetchResults
    (by decide)
    (fun c hcc => by
      have hok : Except.ok ({ Total := 2, ByRepo := some [("lib", 2)] } : Commits) =
          Except.ok c := hcc
      exact ⟨[("lib", 2)], by rw [← Except.ok.inj hok]⟩)

end FabDigest
